import Mathlib

/-!
Verification of the retry and error-classification engine of the s3fs
repository (the `_error_wrapper` executor, the error classifier, the
backoff policy and the extension registry of `s3fs/core.py`).

The engine itself is not present in the source tree (only its test suite
`s3fs/tests/test_custom_error_handler.py` is), so the definitions below
are modelled from the specification, section by section, and checked
against the behaviours the test suite pins down.
-/

namespace S3fs

/-- Modelled from the spec: §3 Data Model, "Error".  The engine's source
file (`s3fs/core.py`) is missing from the tree; per the spec an error is
an opaque failure value carrying a kind/category, an optional
backend-assigned code (string), and an optional human message. -/
structure Error where
  kind : String
  code : Option String
  msg : Option String
deriving Repr, DecidableEq

/-- Modelled from the spec: §4.1 step 1, the built-in backend-throttling
signature codes ("slow down" / "throttling" / "request limit exceeded",
plus the clock-skew-on-signature code). -/
def TRANSIENT_CODES : List String :=
  ["SlowDown", "Throttling", "ThrottlingException", "RequestLimitExceeded",
   "RequestTimeTooSkewed"]

/-- Modelled from the spec: §3, the fixed built-in contents of the
Retryable-Error-Set (connectivity resets, incomplete reads, timeouts),
which are also §4.1 step 1 transient-network signatures. -/
def BUILTIN_RETRYABLE_KINDS : List String :=
  ["ConnectionResetError", "IncompleteRead", "Timeout"]

/-- Modelled from the spec: §4.1 step 1.  An error matches a built-in
signature when its backend code is one of the throttling / clock-skew
codes (an error lacking a structured code is "no match", not an error)
or its kind is one of the built-in transient-network kinds. -/
def matchesBuiltin (e : Error) : Bool :=
  (match e.code with
   | some c => TRANSIENT_CODES.contains c
   | none => false)
  || BUILTIN_RETRYABLE_KINDS.contains e.kind

/-- A custom classifier predicate: it may return a boolean or itself
raise (`Except.error`). -/
def Classifier : Type := Error → Except Unit Bool

/-- Modelled from the spec: §2/§4.4, the Extension Registry — process-wide
state holding the current set of retryable error kinds and the current
custom classifier. -/
structure Registry where
  retryable : List String
  classifier : Classifier

/-- Modelled from the spec: §3, the registry's initial state — the
retryable set holds the fixed built-in kinds and the custom classifier
defaults to a predicate that always returns false. -/
def defaultRegistry : Registry :=
  Registry.mk BUILTIN_RETRYABLE_KINDS (fun _ => Except.ok false)

/-- Modelled from the spec: §4.4 `add_retryable_error` — inserts a kind
into the Retryable-Error-Set, idempotent if already present. -/
def add_retryable_error (reg : Registry) (k : String) : Registry :=
  if reg.retryable.contains k then reg
  else Registry.mk (reg.retryable ++ [k]) reg.classifier

/-- Modelled from the spec: §4.4 `set_custom_error_handler` — replaces the
single custom classifier slot; last writer wins, no composition. -/
def set_custom_error_handler (reg : Registry) (p : Classifier) : Registry :=
  Registry.mk reg.retryable p

/-- Modelled from the spec: §4.1 step 3/4 — the result of invoking the
custom classifier predicate, where a raising predicate is treated as
"false" rather than crashing the executor. -/
def runClassifier (p : Classifier) (e : Error) : Bool :=
  match p e with
  | Except.ok b => b
  | Except.error _ => false

/-- Modelled from the spec: §4.1 `should_retry` — decision order: built-in
signatures first, then Retryable-Error-Set membership, then the custom
classifier predicate (false if it raises). -/
def should_retry (reg : Registry) (e : Error) : Bool :=
  if matchesBuiltin e then true
  else if reg.retryable.contains e.kind then true
  else runClassifier reg.classifier e

/-- Modelled from the spec: §4.2 Backoff Policy —
`min(base_growth^attempt_index * base_delay, max_delay)` with
base_growth = 1.7, base_delay = 0.1, max_delay = 15; deterministic. -/
def delay_for (i : Nat) : ℚ :=
  min ((17 / 10 : ℚ) ^ i * (1 / 10)) 15

/-- Observable events of one executor invocation, in order: an invocation
of the operation (zero-based call index), a classification of a failure
(with its verdict), and a backoff sleep (with its duration). -/
inductive Event where
  | call (i : Nat)
  | classify (verdict : Bool)
  | sleep (d : ℚ)
deriving Repr, DecidableEq

/-- An operation under retry: call index ↦ success value or Error.  The
index lets one operation behave differently across attempts, as the
stateful test operations do. -/
def Op (α : Type) : Type := Nat → Except Error α

/-- Modelled from the spec: §4.3 Retry Executor loop (the missing
`_error_wrapper`), with the event trace made explicit.  `idx` is the
zero-based index of the current attempt and `remaining` the number of
attempts still allowed after it.  On success return immediately; on
failure propagate when attempts are exhausted (without consulting the
classifier) or when the classifier says no, else sleep `delay_for idx`
and run the next attempt. -/
def execute_aux (reg : Registry) (op : Op α) (idx : Nat) :
    (remaining : Nat) → List Event × Except Error α
  | 0 =>
    match op idx with
    | Except.ok v => ([Event.call idx], Except.ok v)
    | Except.error e => ([Event.call idx], Except.error e)
  | r + 1 =>
    match op idx with
    | Except.ok v => ([Event.call idx], Except.ok v)
    | Except.error e =>
      if should_retry reg e then
        let rest := execute_aux reg op (idx + 1) r
        (Event.call idx :: Event.classify true :: Event.sleep (delay_for idx)
           :: rest.1, rest.2)
      else
        ([Event.call idx, Event.classify false], Except.error e)

/-- Modelled from the spec: §4.3/§6 `execute(operation, max_attempts)`
(`_error_wrapper(func, retries=...)` in the tests): up to `max_attempts`
sequential attempts, first attempt has index 0. -/
def execute (reg : Registry) (op : Op α) (max_attempts : Nat) :
    List Event × Except Error α :=
  execute_aux reg op 0 (max_attempts - 1)

/-- Number of operation invocations recorded in a trace. -/
def callsOf (tr : List Event) : Nat :=
  (tr.filter fun ev => match ev with | Event.call _ => true | _ => false).length

/-- The backoff durations recorded in a trace, in order. -/
def sleepsOf (tr : List Event) : List ℚ :=
  tr.filterMap fun ev => match ev with | Event.sleep d => some d | _ => none

/-- Checks that every sleep in the trace is immediately preceded by a
classification with verdict true. -/
def sleepsPreceded : List Event → Bool
  | [] => true
  | Event.classify true :: Event.sleep _ :: rest => sleepsPreceded rest
  | Event.sleep _ :: _ => false
  | _ :: rest => sleepsPreceded rest

/-- Checks that a trace consists of zero or more blocks
`[call i, classify true, sleep (delay_for i)]` for consecutive attempt
indices starting at the given one, ended by a final attempt that is
either bare (`[call m]`: success, or exhaustion without consulting the
classifier) or followed by a negative classification
(`[call m, classify false]`). -/
def traceShape : Nat → List Event → Bool
  | i, [Event.call j] => i == j
  | i, [Event.call j, Event.classify false] => i == j
  | i, Event.call j :: Event.classify true :: Event.sleep d :: rest =>
      i == j && d == delay_for i && traceShape (i + 1) rest
  | _, _ => false

/-- Whether an event is a backoff sleep. -/
def isSleep : Event → Bool
  | Event.sleep _ => true
  | _ => false

/-- Checks whether the trace ends with a sleep event. -/
def endsWithSleep (tr : List Event) : Bool :=
  (tr.getLast?.map isSleep).getD false

/-- Registry states reachable from the default one through the Extension
Registry's two operations. -/
inductive Reachable : Registry → Prop where
  | init : Reachable defaultRegistry
  | add (reg : Registry) (k : String) :
      Reachable reg → Reachable (add_retryable_error reg k)
  | set (reg : Registry) (p : Classifier) :
      Reachable reg → Reachable (set_custom_error_handler reg p)

/-! ### Concrete fixtures, mirroring the test suite's errors and handlers -/

/-- A backend error carrying the built-in "SlowDown" throttling code. -/
def slowDownError : Error :=
  Error.mk "ClientError" (some "SlowDown") (some "Please reduce your request rate")

/-- A custom application error of a kind unknown to the built-ins. -/
def customError : Error :=
  Error.mk "CustomRetryableError" none (some "Custom error that should retry")

/-- A custom application error meant to stay terminal. -/
def otherError : Error :=
  Error.mk "CustomNonRetryableError" none (some "Custom error that should not retry")

/-- A backend error whose code matches no built-in signature. -/
def customCodeError : Error :=
  Error.mk "ClientError" (some "CustomThrottlingError") (some "Custom throttling message")

/-- A classifier accepting exactly the custom retryable kind. -/
def kindClassifier : Classifier :=
  fun e => Except.ok (e.kind == "CustomRetryableError")

/-- A classifier dispatching on a backend error's structured code field. -/
def codeClassifier : Classifier :=
  fun e => Except.ok (e.code == some "CustomThrottlingError")

/-- A classifier rejecting every error. -/
def falseClassifier : Classifier := fun _ => Except.ok false

/-- A classifier that itself raises on every error. -/
def raisingClassifier : Classifier := fun _ => Except.error ()

/-- The default registry with the kind-based classifier installed. -/
def kindRegistry : Registry :=
  set_custom_error_handler defaultRegistry kindClassifier

/-- The default registry with the code-based classifier installed. -/
def codeRegistry : Registry :=
  set_custom_error_handler defaultRegistry codeClassifier

/-- The default registry with the always-false classifier installed. -/
def falseRegistry : Registry :=
  set_custom_error_handler defaultRegistry falseClassifier

/-- The default registry with the raising classifier installed. -/
def raisingRegistry : Registry :=
  set_custom_error_handler defaultRegistry raisingClassifier

/-- An operation that fails twice with the custom error, then succeeds. -/
def failTwiceOp : Op String :=
  fun i => if i < 2 then Except.error customError else Except.ok "success"

/-- The default registry after registering the custom error kind as
retryable. -/
def grownRegistry : Registry :=
  add_retryable_error defaultRegistry "CustomRetryableError"

/-! ### Basic trace-accounting lemmas -/

theorem callsOf_nil : callsOf [] = 0 := rfl

theorem callsOf_call (i : Nat) (tr : List Event) :
    callsOf (Event.call i :: tr) = callsOf tr + 1 := by
  simp [callsOf, List.filter]

theorem callsOf_classify (b : Bool) (tr : List Event) :
    callsOf (Event.classify b :: tr) = callsOf tr := by
  simp [callsOf, List.filter]

theorem callsOf_sleep (d : ℚ) (tr : List Event) :
    callsOf (Event.sleep d :: tr) = callsOf tr := by
  simp [callsOf, List.filter]

theorem sleepsOf_nil : sleepsOf [] = [] := rfl

theorem sleepsOf_call (i : Nat) (tr : List Event) :
    sleepsOf (Event.call i :: tr) = sleepsOf tr := by
  simp [sleepsOf]

theorem sleepsOf_classify (b : Bool) (tr : List Event) :
    sleepsOf (Event.classify b :: tr) = sleepsOf tr := by
  simp [sleepsOf]

theorem sleepsOf_sleep (d : ℚ) (tr : List Event) :
    sleepsOf (Event.sleep d :: tr) = d :: sleepsOf tr := by
  simp [sleepsOf]

/-- Every executor trace starts with the invocation of the current
attempt. -/
theorem execute_aux_head (reg : Registry) (op : Op α) (idx r : Nat) :
    ∃ t, (execute_aux reg op idx r).1 = Event.call idx :: t := by
  cases r with
  | zero =>
    cases h : op idx with
    | ok v => exact ⟨[], by simp [execute_aux, h]⟩
    | error e => exact ⟨[], by simp [execute_aux, h]⟩
  | succ r =>
    cases h : op idx with
    | ok v => exact ⟨[], by simp [execute_aux, h]⟩
    | error e =>
      by_cases hr : should_retry reg e
      · exact ⟨Event.classify true :: Event.sleep (delay_for idx)
            :: (execute_aux reg op (idx + 1) r).1, by simp [execute_aux, h, hr]⟩
      · exact ⟨[Event.classify false], by simp [execute_aux, h, hr]⟩

/-- Every executor run performs at least one attempt. -/
theorem callsOf_execute_aux_pos (reg : Registry) (op : Op α) (idx r : Nat) :
    1 ≤ callsOf (execute_aux reg op idx r).1 := by
  obtain ⟨t, ht⟩ := execute_aux_head reg op idx r
  rw [ht, callsOf_call]
  omega

/-! ### Core behaviour lemmas about the executor loop -/

/-- If the operation fails with a retryable error at every call, the
executor run from attempt `idx` with `r` further attempts allowed makes
exactly `r + 1` calls and returns the error of the last one. -/
theorem execute_aux_always_error (reg : Registry) (err : Nat → Error)
    (hre : ∀ i, should_retry reg (err i) = true) (r : Nat) : ∀ idx,
    (execute_aux reg (fun i => (Except.error (err i) : Except Error α)) idx r).2
        = Except.error (err (idx + r))
    ∧ callsOf (execute_aux reg
        (fun i => (Except.error (err i) : Except Error α)) idx r).1 = r + 1 := by
  induction r with
  | zero =>
    intro idx
    simp [execute_aux, callsOf_call, callsOf_nil]
  | succ r ih =>
    intro idx
    obtain ⟨ih1, ih2⟩ := ih (idx + 1)
    constructor
    · simp only [execute_aux, hre idx, if_true]
      rw [ih1]
      have : idx + 1 + r = idx + (r + 1) := by omega
      rw [this]
    · simp only [execute_aux, hre idx, if_true]
      rw [callsOf_call, callsOf_classify, callsOf_sleep, ih2]

/-- If the operation fails retryably on its first `N` calls (counting
from `idx`) and succeeds on the next one, and at least `N` further
attempts are allowed, the executor returns the success value after
exactly `N + 1` calls. -/
theorem execute_aux_succeeds (reg : Registry) (op : Op α) (v : α) :
    ∀ (N idx r : Nat),
    (∀ i < N, ∃ e, op (idx + i) = Except.error e ∧ should_retry reg e = true) →
    op (idx + N) = Except.ok v → N ≤ r →
    (execute_aux reg op idx r).2 = Except.ok v
    ∧ callsOf (execute_aux reg op idx r).1 = N + 1 := by
  intro N
  induction N with
  | zero =>
    intro idx r _ hsucc _
    rw [Nat.add_zero] at hsucc
    cases r with
    | zero => simp [execute_aux, hsucc, callsOf_call, callsOf_nil]
    | succ r => simp [execute_aux, hsucc, callsOf_call, callsOf_nil]
  | succ N ih =>
    intro idx r hfail hsucc hr
    obtain ⟨r', rfl⟩ : ∃ r', r = r' + 1 := ⟨r - 1, by omega⟩
    obtain ⟨e, he, hree⟩ := hfail 0 (by omega)
    rw [Nat.add_zero] at he
    have hrec := ih (idx + 1) r'
      (fun i hi => by
        obtain ⟨e', he', hre'⟩ := hfail (i + 1) (by omega)
        exact ⟨e', by rw [show idx + 1 + i = idx + (i + 1) by omega]; exact he', hre'⟩)
      (by rw [show idx + 1 + N = idx + (N + 1) by omega]; exact hsucc)
      (by omega)
    constructor
    · simp only [execute_aux, he, hree, if_true]
      exact hrec.1
    · simp only [execute_aux, he, hree, if_true]
      rw [callsOf_call, callsOf_classify, callsOf_sleep, hrec.2]

/-- A failure on the current attempt that the classifier rejects (or
that exhausts the attempt budget) is propagated unchanged after that
single call. -/
theorem execute_aux_first_nonretryable (reg : Registry) (op : Op α)
    (e : Error) (idx r : Nat) (hop : op idx = Except.error e)
    (hsr : should_retry reg e = false) :
    (execute_aux reg op idx r).2 = Except.error e
    ∧ callsOf (execute_aux reg op idx r).1 = 1 := by
  cases r with
  | zero => simp [execute_aux, hop, callsOf_call, callsOf_nil]
  | succ r =>
    simp [execute_aux, hop, hsr, callsOf_call, callsOf_classify, callsOf_nil]

/-- The sleeps of an executor trace are exactly the backoff delays of
the non-final attempts, in order. -/
theorem execute_aux_sleeps (reg : Registry) (op : Op α) (r : Nat) : ∀ idx,
    sleepsOf (execute_aux reg op idx r).1
      = (List.range (callsOf (execute_aux reg op idx r).1 - 1)).map
          (fun j => delay_for (idx + j)) := by
  induction r with
  | zero =>
    intro idx
    cases h : op idx with
    | ok v => simp [execute_aux, h, callsOf_call, callsOf_nil, sleepsOf]
    | error e => simp [execute_aux, h, callsOf_call, callsOf_nil, sleepsOf]
  | succ r ih =>
    intro idx
    cases h : op idx with
    | ok v => simp [execute_aux, h, callsOf_call, callsOf_nil, sleepsOf]
    | error e =>
      by_cases hr : should_retry reg e
      · have hpos := callsOf_execute_aux_pos reg op (idx + 1) r
        obtain ⟨m, hm⟩ : ∃ m, callsOf (execute_aux reg op (idx + 1) r).1 = m + 1 :=
          ⟨callsOf (execute_aux reg op (idx + 1) r).1 - 1, by omega⟩
        simp only [execute_aux, h, hr, if_true]
        rw [sleepsOf_call, sleepsOf_classify, sleepsOf_sleep, ih (idx + 1),
          callsOf_call, callsOf_classify, callsOf_sleep, hm]
        rw [Nat.add_sub_cancel, Nat.add_sub_cancel, List.range_succ_eq_map]
        simp only [List.map_cons, List.map_map]
        refine List.cons_eq_cons.mpr ⟨by rw [Nat.add_zero], ?_⟩
        apply List.map_congr_left
        intro j _
        simp only [Function.comp_apply, Nat.succ_eq_add_one]
        congr 1
        omega
      · simp [execute_aux, h, hr, callsOf_call, callsOf_classify, callsOf_nil,
          sleepsOf]

/-- Every sleep in an executor trace is immediately preceded by a
positive classification of the failure that caused it. -/
theorem execute_aux_sleepsPreceded (reg : Registry) (op : Op α) (r : Nat) :
    ∀ idx, sleepsPreceded (execute_aux reg op idx r).1 = true := by
  induction r with
  | zero =>
    intro idx
    cases h : op idx with
    | ok v => simp [execute_aux, h, sleepsPreceded]
    | error e => simp [execute_aux, h, sleepsPreceded]
  | succ r ih =>
    intro idx
    cases h : op idx with
    | ok v => simp [execute_aux, h, sleepsPreceded]
    | error e =>
      by_cases hr : should_retry reg e
      · simp only [execute_aux, h, hr, if_true]
        rw [show sleepsPreceded (Event.call idx :: Event.classify true
            :: Event.sleep (delay_for idx) :: (execute_aux reg op (idx + 1) r).1)
            = sleepsPreceded (Event.classify true :: Event.sleep (delay_for idx)
            :: (execute_aux reg op (idx + 1) r).1) from rfl]
        rw [show sleepsPreceded (Event.classify true :: Event.sleep (delay_for idx)
            :: (execute_aux reg op (idx + 1) r).1)
            = sleepsPreceded (execute_aux reg op (idx + 1) r).1 from rfl]
        exact ih (idx + 1)
      · simp [execute_aux, h, hr, sleepsPreceded]

/-- An executor trace never ends with a sleep: no backoff happens after
the final attempt. -/
theorem execute_aux_lastNotSleep (reg : Registry) (op : Op α) (r : Nat) :
    ∀ idx d, (execute_aux reg op idx r).1.getLast? ≠ some (Event.sleep d) := by
  induction r with
  | zero =>
    intro idx d
    cases h : op idx with
    | ok v => simp [execute_aux, h]
    | error e => simp [execute_aux, h]
  | succ r ih =>
    intro idx d
    cases h : op idx with
    | ok v => simp [execute_aux, h]
    | error e =>
      by_cases hr : should_retry reg e
      · obtain ⟨t, ht⟩ := execute_aux_head reg op (idx + 1) r
        simp only [execute_aux, h, hr, if_true]
        rw [ht, List.getLast?_cons_cons, List.getLast?_cons_cons,
          List.getLast?_cons_cons]
        rw [← ht]
        exact ih (idx + 1) d
      · simp [execute_aux, h, hr]

/-- Every executor trace matches the block grammar `traceShape`:
consecutive retried attempts each contribute `call i`, `classify true`,
`sleep (delay_for i)`, and the final attempt is a bare call or a call
followed by a negative classification. -/
theorem execute_aux_traceShape (reg : Registry) (op : Op α) (r : Nat) :
    ∀ idx, traceShape idx (execute_aux reg op idx r).1 = true := by
  induction r with
  | zero =>
    intro idx
    cases h : op idx with
    | ok v => simp [execute_aux, h, traceShape]
    | error e => simp [execute_aux, h, traceShape]
  | succ r ih =>
    intro idx
    cases h : op idx with
    | ok v => simp [execute_aux, h, traceShape]
    | error e =>
      by_cases hr : should_retry reg e
      · simp only [execute_aux, h, hr, if_true]
        rw [show traceShape idx (Event.call idx :: Event.classify true
            :: Event.sleep (delay_for idx) :: (execute_aux reg op (idx + 1) r).1)
            = (idx == idx && delay_for idx == delay_for idx
               && traceShape (idx + 1) (execute_aux reg op (idx + 1) r).1) from rfl]
        simp [ih (idx + 1)]
      · simp [execute_aux, h, hr, traceShape]

/-- An executor trace never ends with a sleep (Boolean form). -/
theorem execute_aux_endsWithSleep (reg : Registry) (op : Op α) (idx r : Nat) :
    endsWithSleep (execute_aux reg op idx r).1 = false := by
  unfold endsWithSleep
  cases hl : (execute_aux reg op idx r).1.getLast? with
  | none => rfl
  | some ev =>
    cases ev with
    | call i => rfl
    | classify b => rfl
    | sleep d => exact absurd hl (execute_aux_lastNotSleep reg op r idx d)

/-- Built-in signature matches are retried under any registry state. -/
theorem should_retry_of_builtin (reg : Registry) (e : Error)
    (h : matchesBuiltin e = true) : should_retry reg e = true := by
  simp [should_retry, h]

/-- Membership of the retryable set forces a retry under any classifier. -/
theorem should_retry_of_mem (reg : Registry) (e : Error)
    (h : e.kind ∈ reg.retryable) : should_retry reg e = true := by
  cases hb : matchesBuiltin e with
  | true => simp [should_retry, hb]
  | false => simp [should_retry, hb, h]

/-- Past attempt index 10 the raw exponential delay exceeds the cap. -/
theorem raw_delay_large (i : Nat) (h : 10 ≤ i) :
    (15 : ℚ) ≤ (17 / 10) ^ i * (1 / 10) := by
  induction i, h using Nat.le_induction with
  | base => norm_num
  | succ i _ ih =>
    have hnn : (0 : ℚ) ≤ (17 / 10) ^ i * (1 / 10) := by positivity
    calc (15 : ℚ) ≤ (17 / 10) ^ i * (1 / 10) := ih
      _ ≤ (17 / 10) * ((17 / 10) ^ i * (1 / 10)) :=
          le_mul_of_one_le_left hnn (by norm_num)
      _ = (17 / 10) ^ (i + 1) * (1 / 10) := by ring

/-- Every registry reachable from the default one keeps all built-in
kinds in its retryable set. -/
theorem reachable_keeps_builtins (reg : Registry) (h : Reachable reg) :
    ∀ b ∈ BUILTIN_RETRYABLE_KINDS, b ∈ reg.retryable := by
  induction h with
  | init => intro b hb; exact hb
  | add reg' k _ ih =>
    intro b hb
    cases hk : reg'.retryable.contains k with
    | true =>
      have hkmem : k ∈ reg'.retryable := by simpa using hk
      simpa [add_retryable_error, hkmem] using ih b hb
    | false =>
      simp only [add_retryable_error, hk, Bool.false_eq_true, if_false,
        List.mem_append]
      exact Or.inl (ih b hb)
  | set reg' p _ ih =>
    intro b hb
    exact ih b hb

/-! ### Claim theorems -/

/-- C1: for every always-failing operation whose errors are all
retryable and every K ≥ 1, `execute` with `max_attempts = K` invokes the
operation exactly K times and propagates the error raised on the K-th
attempt (the last attempt's error, never an aggregate). -/
theorem claim_c1_always_failing_runs_k_times {α : Type} (reg : Registry)
    (err : Nat → Error) (K : Nat) (hK : 1 ≤ K)
    (hre : ∀ i, should_retry reg (err i) = true) :
    (execute reg (fun i => (Except.error (err i) : Except Error α)) K).2
        = Except.error (err (K - 1))
    ∧ callsOf
        (execute reg (fun i => (Except.error (err i) : Except Error α)) K).1
        = K := by
  obtain ⟨h1, h2⟩ :=
    execute_aux_always_error (α := α) reg err hre (K - 1) 0
  unfold execute
  constructor
  · rw [h1, Nat.zero_add]
  · rw [h2]
    omega

/-- C1 witness: the always-failing custom error with the kind classifier
and three attempts — three calls, the last error propagates. -/
theorem claim_c1_witness :
    (execute kindRegistry
        (fun _ => (Except.error customError : Except Error String)) 3).2
      = Except.error customError
    ∧ callsOf (execute kindRegistry
        (fun _ => (Except.error customError : Except Error String)) 3).1 = 3 :=
  claim_c1_always_failing_runs_k_times kindRegistry (fun _ => customError) 3
    (by norm_num) (fun _ => rfl)

/-- C2: an operation failing retryably on its first N calls and
succeeding on call N + 1, run with `max_attempts ≥ N + 1`, yields the
success value after exactly N + 1 invocations. -/
theorem claim_c2_fail_n_then_succeed {α : Type} (reg : Registry) (op : Op α)
    (v : α) (N K : Nat)
    (hfail : ∀ i < N, ∃ e, op i = Except.error e ∧ should_retry reg e = true)
    (hsucc : op N = Except.ok v) (hK : N + 1 ≤ K) :
    (execute reg op K).2 = Except.ok v
    ∧ callsOf (execute reg op K).1 = N + 1 := by
  unfold execute
  exact execute_aux_succeeds reg op v N 0 (K - 1)
    (fun i hi => by simpa using hfail i hi) (by simpa using hsucc) (by omega)

/-- C2 witness: the fail-twice-then-succeed operation with the kind
classifier and five attempts — success after exactly three calls. -/
theorem claim_c2_witness :
    (execute kindRegistry failTwiceOp 5).2 = Except.ok "success"
    ∧ callsOf (execute kindRegistry failTwiceOp 5).1 = 2 + 1 :=
  claim_c2_fail_n_then_succeed kindRegistry failTwiceOp "success" 2 5
    (fun i hi => ⟨customError, by simp [failTwiceOp, hi], rfl⟩)
    (by simp [failTwiceOp]) (by norm_num)

/-- C3: an error matching a built-in transient signature (or one whose
kind is in the retryable set) is retried whatever the custom classifier
is — the classifier is strictly additive and can never suppress a
built-in or registry-based retry decision. -/
theorem claim_c3_builtin_retry_unconditional (reg : Registry) (e : Error)
    (h : matchesBuiltin e = true ∨ e.kind ∈ reg.retryable) :
    should_retry reg e = true := by
  cases hb : matchesBuiltin e with
  | true => simp [should_retry, hb]
  | false =>
    cases h with
    | inl h' => rw [h'] at hb; cases hb
    | inr hm => simp [should_retry, hb, hm]

/-- C3 witness: the "SlowDown" throttling error is retried even under a
classifier that rejects every error. -/
theorem claim_c3_witness : should_retry falseRegistry slowDownError = true :=
  claim_c3_builtin_retry_unconditional falseRegistry slowDownError (Or.inl rfl)

/-- C4: the backoff delay is exactly `min(1.7^i * 0.1, 15)`,
deterministic, monotonically non-decreasing in the attempt index, and
saturating at 15. -/
theorem claim_c4_backoff_formula (i : Nat) :
    delay_for i = min ((17 / 10 : ℚ) ^ i * (1 / 10)) 15
    ∧ delay_for i ≤ delay_for (i + 1)
    ∧ delay_for i ≤ 15
    ∧ (10 ≤ i → delay_for i = 15) := by
  refine ⟨rfl, ?_, min_le_right _ _, ?_⟩
  · unfold delay_for
    apply min_le_min _ le_rfl
    apply mul_le_mul_of_nonneg_right _ (by norm_num)
    exact pow_le_pow_right₀ (by norm_num) (Nat.le_succ i)
  · intro h
    unfold delay_for
    exact min_eq_right (raw_delay_large i h)

/-- C4 witness: at attempt index 10 the delay has saturated at 15. -/
theorem claim_c4_witness : delay_for 10 = 15 :=
  (claim_c4_backoff_formula 10).2.2.2 (by norm_num)

/-- C5: membership of the retryable set forces a retry whatever the
custom classifier says; every reachable registry keeps the built-in
kinds; `add_retryable_error` only adds (idempotently when the kind is
already present) and removes nothing. -/
theorem claim_c5_retryable_set_is_additive (reg : Registry) (e : Error)
    (k k' : String) (hreach : Reachable reg)
    (hmem : e.kind ∈ reg.retryable) :
    should_retry reg e = true
    ∧ (∀ b ∈ BUILTIN_RETRYABLE_KINDS, b ∈ reg.retryable)
    ∧ k ∈ (add_retryable_error reg k).retryable
    ∧ (k' ∈ reg.retryable → k' ∈ (add_retryable_error reg k).retryable)
    ∧ (k ∈ reg.retryable → add_retryable_error reg k = reg) := by
  refine ⟨should_retry_of_mem reg e hmem,
    reachable_keeps_builtins reg hreach, ?_, ?_, ?_⟩
  · by_cases hk : k ∈ reg.retryable
    · simp [add_retryable_error, hk]
    · simp [add_retryable_error, hk]
  · intro h'
    by_cases hk : k ∈ reg.retryable
    · simp [add_retryable_error, hk, h']
    · simp [add_retryable_error, hk, h']
  · intro hk
    simp [add_retryable_error, hk]

/-- C5 witness: after adding the custom kind to the default registry the
custom error is retried, the built-ins are still present, and re-adding
the kind changes nothing. -/
theorem claim_c5_witness :
    should_retry grownRegistry customError = true
    ∧ (∀ b ∈ BUILTIN_RETRYABLE_KINDS, b ∈ grownRegistry.retryable)
    ∧ "CustomRetryableError" ∈
        (add_retryable_error grownRegistry "CustomRetryableError").retryable
    ∧ ("Timeout" ∈ grownRegistry.retryable → "Timeout" ∈
        (add_retryable_error grownRegistry "CustomRetryableError").retryable)
    ∧ ("CustomRetryableError" ∈ grownRegistry.retryable →
        add_retryable_error grownRegistry "CustomRetryableError" = grownRegistry) :=
  claim_c5_retryable_set_is_additive grownRegistry customError
    "CustomRetryableError" "Timeout"
    (Reachable.add defaultRegistry "CustomRetryableError" Reachable.init)
    (by simp [grownRegistry, add_retryable_error, defaultRegistry,
      BUILTIN_RETRYABLE_KINDS, customError])

/-- C6: every executor trace classifies each retried failure before the
corresponding backoff sleep, sleeps exactly `min(1.7^j * 0.1, 15)`
between consecutive attempts (one sleep per non-final attempt, in
order), and never sleeps after the final attempt. -/
theorem claim_c6_classify_then_sleep_order {α : Type} (reg : Registry)
    (op : Op α) (K : Nat) (hK : 1 ≤ K) :
    traceShape 0 (execute reg op K).1 = true
    ∧ sleepsOf (execute reg op K).1
        = (List.range (callsOf (execute reg op K).1 - 1)).map
            (fun j => min ((17 / 10 : ℚ) ^ j * (1 / 10)) 15)
    ∧ sleepsPreceded (execute reg op K).1 = true
    ∧ endsWithSleep (execute reg op K).1 = false := by
  unfold execute
  refine ⟨execute_aux_traceShape reg op (K - 1) 0, ?_,
    execute_aux_sleepsPreceded reg op (K - 1) 0,
    execute_aux_endsWithSleep reg op 0 (K - 1)⟩
  rw [execute_aux_sleeps reg op (K - 1) 0]
  apply List.map_congr_left
  intro j _
  rw [Nat.zero_add]
  rfl

/-- C6 witness: the always-failing custom error under the kind
classifier with three attempts. -/
theorem claim_c6_witness :
    traceShape 0 (execute kindRegistry
        (fun _ => (Except.error customError : Except Error String)) 3).1 = true
    ∧ sleepsOf (execute kindRegistry
        (fun _ => (Except.error customError : Except Error String)) 3).1
        = (List.range (callsOf (execute kindRegistry
            (fun _ => (Except.error customError : Except Error String)) 3).1 - 1)
          ).map (fun j => min ((17 / 10 : ℚ) ^ j * (1 / 10)) 15)
    ∧ sleepsPreceded (execute kindRegistry
        (fun _ => (Except.error customError : Except Error String)) 3).1 = true
    ∧ endsWithSleep (execute kindRegistry
        (fun _ => (Except.error customError : Except Error String)) 3).1 = false :=
  claim_c6_classify_then_sleep_order kindRegistry
    (fun _ => (Except.error customError : Except Error String)) 3 (by norm_num)

/-- C7: when the custom predicate itself raises on an error that matches
neither the built-ins nor the retryable set, the executor treats the
verdict as false: it does not retry and propagates the operation's
original error, not the predicate's failure. -/
theorem claim_c7_raising_predicate_is_false {α : Type} (reg : Registry)
    (e : Error) (u : Unit) (K : Nat)
    (hraise : reg.classifier e = Except.error u)
    (hb : matchesBuiltin e = false) (hm : e.kind ∉ reg.retryable)
    (hK : 1 ≤ K) :
    should_retry reg e = false
    ∧ (execute reg (fun _ => (Except.error e : Except Error α)) K).2
        = Except.error e
    ∧ callsOf
        (execute reg (fun _ => (Except.error e : Except Error α)) K).1 = 1 := by
  have hsr : should_retry reg e = false := by
    simp [should_retry, hb, hm, runClassifier, hraise]
  unfold execute
  obtain ⟨h1, h2⟩ := execute_aux_first_nonretryable reg
    (fun _ => (Except.error e : Except Error α)) e 0 (K - 1) rfl hsr
  exact ⟨hsr, h1, h2⟩

/-- C7 witness: the raising classifier on the non-retryable custom error
with five attempts — one call, the original error propagates. -/
theorem claim_c7_witness :
    should_retry raisingRegistry otherError = false
    ∧ (execute raisingRegistry
        (fun _ => (Except.error otherError : Except Error String)) 5).2
        = Except.error otherError
    ∧ callsOf (execute raisingRegistry
        (fun _ => (Except.error otherError : Except Error String)) 5).1 = 1 :=
  claim_c7_raising_predicate_is_false raisingRegistry otherError () 5 rfl rfl
    (by decide) (by norm_num)

/-- C8: with the default always-false classifier and no additions to the
retryable set, an error matching no built-in transient signature is
terminal — one invocation, immediate propagation, for any
max_attempts ≥ 1. -/
theorem claim_c8_default_is_terminal {α : Type} (e : Error) (K : Nat)
    (hb : matchesBuiltin e = false) (hK : 1 ≤ K) :
    should_retry defaultRegistry e = false
    ∧ (execute defaultRegistry
        (fun _ => (Except.error e : Except Error α)) K).2 = Except.error e
    ∧ callsOf (execute defaultRegistry
        (fun _ => (Except.error e : Except Error α)) K).1 = 1 := by
  have hm : BUILTIN_RETRYABLE_KINDS.contains e.kind = false := by
    unfold matchesBuiltin at hb
    exact (Bool.or_eq_false_iff.mp hb).2
  have hm' : e.kind ∉ BUILTIN_RETRYABLE_KINDS := by simpa using hm
  have hsr : should_retry defaultRegistry e = false := by
    simp [should_retry, hb, defaultRegistry, hm', runClassifier]
  unfold execute
  obtain ⟨h1, h2⟩ := execute_aux_first_nonretryable defaultRegistry
    (fun _ => (Except.error e : Except Error α)) e 0 (K - 1) rfl hsr
  exact ⟨hsr, h1, h2⟩

/-- C8 witness: a plain non-matching error under the default registry
with five attempts — one call, immediate propagation. -/
theorem claim_c8_witness :
    should_retry defaultRegistry otherError = false
    ∧ (execute defaultRegistry
        (fun _ => (Except.error otherError : Except Error String)) 5).2
        = Except.error otherError
    ∧ callsOf (execute defaultRegistry
        (fun _ => (Except.error otherError : Except Error String)) 5).1 = 1 :=
  claim_c8_default_is_terminal otherError 5 rfl (by norm_num)

/-- C9: with max_attempts = 1 the executor performs exactly one attempt
and propagates the failure without consulting the classifier: the trace
holds a single call event and the outcome is the same for every
registry. -/
theorem claim_c9_one_attempt_skips_classifier {α : Type}
    (reg reg' : Registry) (op : Op α) (e : Error)
    (hop : op 0 = Except.error e) :
    (execute reg op 1).1 = [Event.call 0]
    ∧ (execute reg op 1).2 = Except.error e
    ∧ execute reg op 1 = execute reg' op 1 := by
  unfold execute
  simp [execute_aux, hop]

/-- C9 witness: a single attempt on the failing custom error gives the
same outcome under the kind registry and the always-false registry. -/
theorem claim_c9_witness :
    (execute kindRegistry
        (fun _ => (Except.error customError : Except Error String)) 1).1
        = [Event.call 0]
    ∧ (execute kindRegistry
        (fun _ => (Except.error customError : Except Error String)) 1).2
        = Except.error customError
    ∧ execute kindRegistry
        (fun _ => (Except.error customError : Except Error String)) 1
        = execute falseRegistry
            (fun _ => (Except.error customError : Except Error String)) 1 :=
  claim_c9_one_attempt_skips_classifier kindRegistry falseRegistry
    (fun _ => (Except.error customError : Except Error String)) customError rfl

/-- C10: outside the built-ins and the retryable set, the retry decision
is exactly the custom predicate applied to the very error value the
operation raised; and when that predicate rejects it, the caller
receives that same error value back after a single call. -/
theorem claim_c10_exact_error_object {α : Type} (reg : Registry) (e : Error)
    (op : Op α) (K : Nat) (hb : matchesBuiltin e = false)
    (hm : e.kind ∉ reg.retryable) (hop : op 0 = Except.error e)
    (hK : 1 ≤ K) :
    should_retry reg e = runClassifier reg.classifier e
    ∧ (runClassifier reg.classifier e = false →
        (execute reg op K).2 = Except.error e
        ∧ callsOf (execute reg op K).1 = 1) := by
  have h1 : should_retry reg e = runClassifier reg.classifier e := by
    simp [should_retry, hb, hm]
  refine ⟨h1, fun hf => ?_⟩
  unfold execute
  exact execute_aux_first_nonretryable reg op e 0 (K - 1) hop (h1.trans hf)

/-- C10 witness: the code-dispatching classifier receives the custom
terminal error itself, rejects it by its code field, and the caller gets
that exact error back after one call. -/
theorem claim_c10_witness :
    (should_retry codeRegistry otherError
        = runClassifier codeRegistry.classifier otherError)
    ∧ (runClassifier codeRegistry.classifier otherError = false →
        (execute codeRegistry
            (fun _ => (Except.error otherError : Except Error String)) 5).2
            = Except.error otherError
        ∧ callsOf (execute codeRegistry
            (fun _ => (Except.error otherError : Except Error String)) 5).1
            = 1) :=
  claim_c10_exact_error_object codeRegistry otherError
    (fun _ => (Except.error otherError : Except Error String)) 5 rfl
    (by decide) rfl (by norm_num)

end S3fs
